import Mathlib

/-!
Shallow embedding of the threaded-comment and voting subsystem of the
stockforum server (Node/Express + Mongoose), together with theorems that
settle the frozen claims about it.

Conventions used throughout the embedding:
* MongoDB ObjectIds are modelled as `Nat` (opaque unique identifiers).
* JS numbers holding counters are modelled as `Int` (they are signed and the
  code can in principle drive them negative); `Math.max(0, x - 1)` becomes
  `max 0 (x - 1)`.
* Dates (`createdAt`, `Date.now()`) are modelled as `Nat` timestamps.
* A controller handler is modelled as a pure function from the relevant
  document(s) and the resolved request data to `(HTTP status, new state)`;
  an early `return res.status(...)` leaves the state unchanged, and a path
  that reaches `save()` returns the mutated document(s).
* Mongoose array fields are `List`s; `push` appends (`++ [x]`),
  `Array.prototype.filter` is `List.filter`, `includes` / `some(eq)` is
  list membership of the modelled id.
-/

namespace StockForum

/-- The resolved voting identity used by the like/dislike handlers:
either an authenticated user id (`req.userId`, stored in the `likedBy` /
`dislikedBy` ObjectId arrays) or an anonymous string fingerprint (stored in
the `likedByAnonymous` / `dislikedByAnonymous` string arrays). -/
inductive Voter where
  | auth (id : Nat)
  | anon (fp : String)
deriving DecidableEq, Repr

/-- The six per-target vote fields shared verbatim by the comment schema
(`models/comment.model.js`), the stock schema (`src/unnamed/part_007`) and
the conversation schema: `likes`, `dislikes`, `likedBy`, `likedByAnonymous`,
`dislikedBy`, `dislikedByAnonymous`. -/
structure VoteState where
  likes : Int
  dislikes : Int
  likedBy : List Nat
  likedByAnonymous : List String
  dislikedBy : List Nat
  dislikedByAnonymous : List String
deriving DecidableEq, Repr

namespace VoteState

/-- The `alreadyLiked` check of `likeComment` / `likeStock`:
authenticated users are looked up in `likedBy` (by ObjectId equality),
anonymous fingerprints in `likedByAnonymous` (by string equality). -/
def alreadyLiked (s : VoteState) (v : Voter) : Prop :=
  match v with
  | .auth u => u ∈ s.likedBy
  | .anon fp => fp ∈ s.likedByAnonymous

/-- The `alreadyDisliked` / `previouslyDisliked` check, symmetric to
`alreadyLiked`. -/
def alreadyDisliked (s : VoteState) (v : Voter) : Prop :=
  match v with
  | .auth u => u ∈ s.dislikedBy
  | .anon fp => fp ∈ s.dislikedByAnonymous

instance (s : VoteState) (v : Voter) : Decidable (alreadyLiked s v) := by
  unfold alreadyLiked; cases v <;> infer_instance

instance (s : VoteState) (v : Voter) : Decidable (alreadyDisliked s v) := by
  unfold alreadyDisliked; cases v <;> infer_instance

/-- Body of `likeComment` (`controllers/comment.controller.js` lines
341-383) and of `likeStock` (`controllers/stock.controller.js` lines
301-342), which are textually identical on the six vote fields:
reject with 400 if the caller already liked; otherwise remove a previous
dislike (decrement clamped at 0), then append the caller to the like
membership array and increment `likes`; the mutated document is saved
once at the end. Returns (HTTP status, state after the handler). -/
def like (s : VoteState) (v : Voter) : Nat × VoteState :=
  if alreadyLiked s v then
    (400, s)
  else
    match v with
    | .auth u =>
        if alreadyDisliked s v then
          (200, { s with dislikedBy := s.dislikedBy.filter (fun i => i != u),
                         dislikes := max 0 (s.dislikes - 1),
                         likedBy := s.likedBy ++ [u],
                         likes := s.likes + 1 })
        else
          (200, { s with likedBy := s.likedBy ++ [u], likes := s.likes + 1 })
    | .anon fp =>
        if alreadyDisliked s v then
          (200, { s with dislikedByAnonymous :=
                           s.dislikedByAnonymous.filter (fun i => i != fp),
                         dislikes := max 0 (s.dislikes - 1),
                         likedByAnonymous := s.likedByAnonymous ++ [fp],
                         likes := s.likes + 1 })
        else
          (200, { s with likedByAnonymous := s.likedByAnonymous ++ [fp],
                         likes := s.likes + 1 })

/-- Body of `dislikeComment` (`controllers/comment.controller.js` lines
440-477) and of `dislikeStock` (`controllers/stock.controller.js` lines
406-443), the mirror image of `like`. -/
def dislike (s : VoteState) (v : Voter) : Nat × VoteState :=
  if alreadyDisliked s v then
    (400, s)
  else
    match v with
    | .auth u =>
        if alreadyLiked s v then
          (200, { s with likedBy := s.likedBy.filter (fun i => i != u),
                         likes := max 0 (s.likes - 1),
                         dislikedBy := s.dislikedBy ++ [u],
                         dislikes := s.dislikes + 1 })
        else
          (200, { s with dislikedBy := s.dislikedBy ++ [u],
                         dislikes := s.dislikes + 1 })
    | .anon fp =>
        if alreadyLiked s v then
          (200, { s with likedByAnonymous :=
                           s.likedByAnonymous.filter (fun i => i != fp),
                         likes := max 0 (s.likes - 1),
                         dislikedByAnonymous := s.dislikedByAnonymous ++ [fp],
                         dislikes := s.dislikes + 1 })
        else
          (200, { s with dislikedByAnonymous := s.dislikedByAnonymous ++ [fp],
                         dislikes := s.dislikes + 1 })

end VoteState

/-- Vote direction of the spec's `applyVote` (`up` = like, `down` =
dislike); each direction is a separate Express handler in the source. -/
inductive Dir where
  | up
  | down
deriving DecidableEq, Repr

/-- Dispatch to the like/dislike handler bodies by direction. -/
def VoteState.applyVote (d : Dir) (s : VoteState) (v : Voter) : Nat × VoteState :=
  match d with
  | .up => s.like v
  | .down => s.dislike v

/-- Membership of the identity in the membership set for direction `d`. -/
def VoteState.holds (d : Dir) (s : VoteState) (v : Voter) : Prop :=
  match d with
  | .up => s.alreadyLiked v
  | .down => s.alreadyDisliked v

instance (d : Dir) (s : VoteState) (v : Voter) : Decidable (VoteState.holds d s v) := by
  unfold VoteState.holds; cases d <;> infer_instance

/-- The `lastComment` denormalized snapshot stored on a stock /
portfolio post (`models/portfolioPost.model.js`, stock schema). -/
structure LastComment where
  content : String
  author : String
  authorId : Option Nat
  date : Nat
  commentId : Nat
deriving DecidableEq, Repr

/-- A document of the `Comment` collection (`models/comment.model.js`).
The six vote fields are bundled in `votes` (see `VoteState`). -/
structure CommentDoc where
  id : Nat
  content : String
  author : Option Nat
  isAnonymous : Bool
  stock : Option Nat
  conversation : Option Nat
  parentComment : Option Nat
  votes : VoteState
  isReply : Bool
  createdAt : Nat
deriving DecidableEq, Repr

/-- A document of the `Stock` collection (`src/unnamed/part_007`),
restricted to the fields the core subsystem touches. -/
structure StockDoc where
  id : Nat
  votes : VoteState
  commentCount : Int
  lastComment : Option LastComment
deriving DecidableEq, Repr

/-- `likeComment` / `dislikeComment` / `likeStock` / `dislikeStock`
acting on the containing document: the handler mutates only the six vote
fields and saves the document. -/
def CommentDoc.applyVote (d : Dir) (c : CommentDoc) (v : Voter) : Nat × CommentDoc :=
  ((c.votes.applyVote d v).1, { c with votes := (c.votes.applyVote d v).2 })

/-- Vote handler on a stock document (`likeStock` / `dislikeStock`). -/
def StockDoc.applyVote (d : Dir) (s : StockDoc) (v : Voter) : Nat × StockDoc :=
  ((s.votes.applyVote d v).1, { s with votes := (s.votes.applyVote d v).2 })

/-- A document of the `Conversation` collection (schema appended to
`controllers/portfolio.controller.js` in the source dump), restricted to
the fields its like/unlike handlers touch. -/
structure ConversationDoc where
  id : Nat
  likes : Int
  dislikes : Int
  likedBy : List Nat
  likedByAnonymous : List String
  dislikedBy : List Nat
  dislikedByAnonymous : List String
deriving DecidableEq, Repr

/-- `likeConversation` (`controllers/conversation.controller.js` lines
145-170): only authenticated user ids are handled (`req.userId`); reject
with 400 if the caller already liked, otherwise push the caller onto
`likedBy` and increment `likes`. -/
def likeConversation (c : ConversationDoc) (userId : Nat) :
    Nat × ConversationDoc :=
  if userId ∈ c.likedBy then
    (400, c)
  else
    (200, { c with likedBy := c.likedBy ++ [userId], likes := c.likes + 1 })

/-- `unlikeConversation` (`controllers/conversation.controller.js` lines
173-200): reject with 400 if the caller has not liked, otherwise filter
the caller out of `likedBy` and decrement `likes`. Note: the decrement
`conversation.likes -= 1` on line 190 is NOT clamped at 0. -/
def unlikeConversation (c : ConversationDoc) (userId : Nat) :
    Nat × ConversationDoc :=
  if userId ∉ c.likedBy then
    (400, c)
  else
    (200, { c with likedBy := c.likedBy.filter (fun i => i != userId),
                   likes := c.likes - 1 })

/-- `voteType` of a portfolio vote record (`'upvote'` / `'downvote'`). -/
inductive VoteType where
  | upvote
  | downvote
deriving DecidableEq, Repr

/-- A document of the `PortfolioVote` collection (`portfolioVote.model.js`,
concatenated into `src/models/article.model.js` after the article model):
`portfolio` (required), `user` (optional — absent for anonymous votes),
`voteType` (`'upvote'` / `'downvote'`), `ipAddress` (optional — set for
anonymous votes; the schema's pre-save hook requires a `user` or an
`ipAddress`, which the controller always supplies). The schema's
remaining fields (`userAgent`, timestamps) play no role in the vote
lookups or counters and are omitted. -/
structure PortfolioVoteDoc where
  id : Nat
  portfolio : Nat
  user : Option Nat
  voteType : VoteType
  ipAddress : Option String
deriving DecidableEq, Repr

/-- A document of the `PortfolioPost` collection
(`models/portfolioPost.model.js`), restricted to the fields the core
subsystem touches. -/
structure PortfolioDoc where
  id : Nat
  upvotes : Int
  downvotes : Int
  commentCount : Int
  lastComment : Option LastComment
deriving DecidableEq, Repr

/-- The existing-vote lookup of `votePortfolio` / `removeVote`
(`controllers/portfolio.controller.js` lines 342-357 and 456-469):
authenticated callers are matched by `user`, anonymous callers by
`ipAddress` (the client identifier `req.ip || "anonymous"`) among records
with no `user` field. `findOne` returns the first matching record. -/
def findPortfolioVote (votes : List PortfolioVoteDoc) (portfolioId : Nat)
    (userId : Option Nat) (clientIdentifier : String) :
    Option PortfolioVoteDoc :=
  match userId with
  | some u =>
      votes.find? (fun r => r.portfolio == portfolioId && r.user == some u)
  | none =>
      votes.find? (fun r =>
        r.portfolio == portfolioId &&
        r.ipAddress == some clientIdentifier && r.user == none)

/-- The tail of `votePortfolio` (`controllers/portfolio.controller.js`
lines 379-397): persist the new vote record, then increment the matching
counter on the portfolio. -/
def castPortfolioVote (p : PortfolioDoc) (votes : List PortfolioVoteDoc)
    (userId : Option Nat) (clientIdentifier : String) (voteType : VoteType)
    (newVoteId : Nat) : Nat × PortfolioDoc × List PortfolioVoteDoc :=
  let newVote : PortfolioVoteDoc :=
    { id := newVoteId, portfolio := p.id, user := userId,
      voteType := voteType,
      ipAddress := if userId.isSome then none else some clientIdentifier }
  let p1 :=
    if voteType = .upvote then { p with upvotes := p.upvotes + 1 }
    else { p with downvotes := p.downvotes + 1 }
  (200, p1, votes ++ [newVote])

/-- `votePortfolio` (`controllers/portfolio.controller.js` lines 301-417):
look up the caller's existing vote record; reject with 400 if it has the
requested `voteType`; if it has the opposite type, delete it and decrement
the matching counter (clamped at 0); then persist the new vote record and
increment the requested counter. The state is the portfolio document plus
the `PortfolioVote` collection. -/
def votePortfolio (p : PortfolioDoc) (votes : List PortfolioVoteDoc)
    (userId : Option Nat) (ip : Option String) (voteType : VoteType)
    (newVoteId : Nat) : Nat × PortfolioDoc × List PortfolioVoteDoc :=
  let clientIdentifier := ip.getD "anonymous"
  match findPortfolioVote votes p.id userId clientIdentifier with
  | some existingVote =>
      if existingVote.voteType = voteType then
        (400, p, votes)
      else
        let votes1 := votes.filter (fun r => r.id != existingVote.id)
        let p1 :=
          if existingVote.voteType = .upvote then
            { p with upvotes := max 0 (p.upvotes - 1) }
          else
            { p with downvotes := max 0 (p.downvotes - 1) }
        castPortfolioVote p1 votes1 userId clientIdentifier voteType newVoteId
  | none =>
      castPortfolioVote p votes userId clientIdentifier voteType newVoteId

/-- `removeVote` (`controllers/portfolio.controller.js` lines 426-509):
look up the caller's existing vote record; reject with 400 if none;
otherwise delete it and decrement the matching counter (clamped at 0). -/
def removeVote (p : PortfolioDoc) (votes : List PortfolioVoteDoc)
    (userId : Option Nat) (ip : Option String) :
    Nat × PortfolioDoc × List PortfolioVoteDoc :=
  let clientIdentifier := ip.getD "anonymous"
  match findPortfolioVote votes p.id userId clientIdentifier with
  | none => (400, p, votes)
  | some existingVote =>
      let votes1 := votes.filter (fun r => r.id != existingVote.id)
      let p1 :=
        if existingVote.voteType = .upvote then
          { p with upvotes := max 0 (p.upvotes - 1) }
        else
          { p with downvotes := max 0 (p.downvotes - 1) }
      (200, p1, votes1)

/-- The two compound unique partial indexes declared by the
`PortfolioVote` schema (`portfolioVote.model.js`, concatenated into
`src/models/article.model.js`): `{ portfolio: 1, user: 1 }` unique among
documents where `user` exists, and `{ portfolio: 1, ipAddress: 1 }`
unique among documents where `user` does not exist. A persisted vote
collection therefore holds at most one record per (portfolio, user) for
authenticated votes and at most one record per (portfolio, ipAddress)
among anonymous votes. -/
def portfolioVoteIndexes (votes : List PortfolioVoteDoc) : Prop :=
  (∀ (portfolioId u : Nat),
    (votes.filter
      (fun r => r.portfolio == portfolioId && r.user == some u)).length
      ≤ 1) ∧
  (∀ (portfolioId : Nat) (ipAddr : String),
    (votes.filter (fun r =>
      r.portfolio == portfolioId &&
      r.ipAddress == some ipAddr && r.user == none)).length ≤ 1)

end StockForum

namespace StockForum

/-! ## Core lemmas about the like/dislike bodies -/

theorem VoteState.like_of_alreadyLiked (s : VoteState) (v : Voter)
    (h : s.alreadyLiked v) : s.like v = (400, s) := by
  unfold like
  simp [h]

theorem VoteState.dislike_of_alreadyDisliked (s : VoteState) (v : Voter)
    (h : s.alreadyDisliked v) : s.dislike v = (400, s) := by
  unfold dislike
  simp [h]

theorem VoteState.alreadyLiked_of_like_ok (s : VoteState) (v : Voter)
    (s' : VoteState) (h : s.like v = (200, s')) : s'.alreadyLiked v := by
  cases v with
  | auth u =>
    by_cases hl : s.alreadyLiked (.auth u)
    · simp [like, hl] at h
    · by_cases hd : s.alreadyDisliked (.auth u) <;>
        · simp [like, hl, hd] at h
          rw [← h]
          simp [alreadyLiked]
  | anon fp =>
    by_cases hl : s.alreadyLiked (.anon fp)
    · simp [like, hl] at h
    · by_cases hd : s.alreadyDisliked (.anon fp) <;>
        · simp [like, hl, hd] at h
          rw [← h]
          simp [alreadyLiked]

theorem VoteState.alreadyDisliked_of_dislike_ok (s : VoteState) (v : Voter)
    (s' : VoteState) (h : s.dislike v = (200, s')) : s'.alreadyDisliked v := by
  cases v with
  | auth u =>
    by_cases hd : s.alreadyDisliked (.auth u)
    · simp [dislike, hd] at h
    · by_cases hl : s.alreadyLiked (.auth u) <;>
        · simp [dislike, hl, hd] at h
          rw [← h]
          simp [alreadyDisliked]
  | anon fp =>
    by_cases hd : s.alreadyDisliked (.anon fp)
    · simp [dislike, hd] at h
    · by_cases hl : s.alreadyLiked (.anon fp) <;>
        · simp [dislike, hl, hd] at h
          rw [← h]
          simp [alreadyDisliked]

theorem VoteState.applyVote_of_holds (d : Dir) (s : VoteState) (v : Voter)
    (h : VoteState.holds d s v) : s.applyVote d v = (400, s) := by
  cases d with
  | up => exact s.like_of_alreadyLiked v h
  | down => exact s.dislike_of_alreadyDisliked v h

theorem VoteState.holds_of_applyVote_ok (d : Dir) (s : VoteState) (v : Voter)
    (s' : VoteState) (h : s.applyVote d v = (200, s')) :
    VoteState.holds d s' v := by
  cases d with
  | up => exact s.alreadyLiked_of_like_ok v s' h
  | down => exact s.alreadyDisliked_of_dislike_ok v s' h

/-- A list of length at most one cannot hold two distinct members. -/
theorem eq_of_mem_of_length_le_one {α : Type} {l : List α}
    (h : l.length ≤ 1) {a b : α} (ha : a ∈ l) (hb : b ∈ l) : a = b := by
  match l with
  | [] => cases ha
  | [x] =>
      rw [List.mem_singleton] at ha hb
      rw [ha, hb]
  | x :: y :: t => simp at h

/-- The portfolio-vote lookup predicate of `findPortfolioVote`, the
per-identity-kind key the schema's unique partial indexes are on. -/
def portfolioVotePred (portfolioId : Nat) (userId : Option Nat)
    (clientIdentifier : String) (r : PortfolioVoteDoc) : Bool :=
  match userId with
  | some u => r.portfolio == portfolioId && r.user == some u
  | none =>
      r.portfolio == portfolioId &&
      r.ipAddress == some clientIdentifier && r.user == none

theorem findPortfolioVote_eq_find (votes : List PortfolioVoteDoc)
    (portfolioId : Nat) (userId : Option Nat) (clientIdentifier : String) :
    findPortfolioVote votes portfolioId userId clientIdentifier =
      votes.find? (portfolioVotePred portfolioId userId clientIdentifier) := by
  cases userId <;> rfl

/-- The schema's unique partial indexes bound the caller's lookup
predicate: whatever the caller's identity kind, at most one persisted
record matches it on a given portfolio. -/
theorem portfolioVoteIndexes_filter_le_one (votes : List PortfolioVoteDoc)
    (h : portfolioVoteIndexes votes) (portfolioId : Nat)
    (userId : Option Nat) (clientIdentifier : String) :
    (votes.filter
      (portfolioVotePred portfolioId userId clientIdentifier)).length
      ≤ 1 := by
  cases userId with
  | none => exact h.2 portfolioId clientIdentifier
  | some u => exact h.1 portfolioId u

/-- After a successful `votePortfolio`, the caller's vote lookup finds a
record with the requested `voteType` (assuming the schema's unique
partial indexes hold of the prior, persisted vote collection). -/
theorem votePortfolio_ok_find (p : PortfolioDoc)
    (votes : List PortfolioVoteDoc) (userId : Option Nat)
    (ip : Option String) (t : VoteType) (newVoteId : Nat)
    (p' : PortfolioDoc) (votes' : List PortfolioVoteDoc)
    (huniq : portfolioVoteIndexes votes)
    (h : votePortfolio p votes userId ip t newVoteId = (200, p', votes')) :
    p'.id = p.id ∧
      ∃ r, findPortfolioVote votes' p'.id userId (ip.getD "anonymous") =
             some r ∧ r.voteType = t := by
  classical
  set ci := ip.getD "anonymous" with hci
  set pred := portfolioVotePred p.id userId ci with hpred
  have hnewPred : ∀ (tt : VoteType),
      pred { id := newVoteId, portfolio := p.id, user := userId,
             voteType := tt,
             ipAddress := if userId.isSome then none else some ci } = true := by
    intro tt
    cases userId <;> simp [hpred, portfolioVotePred]
  unfold votePortfolio at h
  dsimp only at h
  rw [findPortfolioVote_eq_find, ← hci, ← hpred] at h
  rcases hfind : votes.find? pred with _ | ev
  · rw [hfind] at h
    unfold castPortfolioVote at h
    dsimp only at h
    cases t <;>
      · obtain ⟨hp, hv⟩ : _ ∧ _ := by simpa using h
        subst hp
        subst hv
        refine ⟨rfl, ?_⟩
        rw [findPortfolioVote_eq_find]
        dsimp only
        rw [← hpred, List.find?_append, hfind]
        simp [hnewPred]
  · rw [hfind] at h
    dsimp only at h
    have hpredEv : pred ev = true := List.find?_some hfind
    have hmemEv : ev ∈ votes := List.mem_of_find?_eq_some hfind
    by_cases hsame : ev.voteType = t
    · simp [hsame] at h
    · rw [if_neg hsame] at h
      unfold castPortfolioVote at h
      dsimp only at h
      have hnone :
          (votes.filter (fun r => r.id != ev.id)).find? pred = none := by
        rw [List.find?_eq_none]
        intro r hr hpredr
        have hrmem : r ∈ votes := (List.mem_filter.mp hr).1
        have hrid : r.id ≠ ev.id := by
          have := (List.mem_filter.mp hr).2
          simpa using this
        have hle := portfolioVoteIndexes_filter_le_one votes huniq
          p.id userId ci
        have h1 : r ∈ votes.filter pred := List.mem_filter.mpr ⟨hrmem, hpredr⟩
        have h2 : ev ∈ votes.filter pred := List.mem_filter.mpr ⟨hmemEv, hpredEv⟩
        exact hrid (congrArg PortfolioVoteDoc.id
          (eq_of_mem_of_length_le_one hle h1 h2))
      rcases hup : ev.voteType with _ | _ <;> rw [hup] at h hsame <;>
        cases t <;>
        first
        | exact absurd rfl hsame
        | · obtain ⟨hp, hv⟩ : _ ∧ _ := by simpa using h
            subst hp
            subst hv
            refine ⟨rfl, ?_⟩
            rw [findPortfolioVote_eq_find]
            dsimp only
            rw [← hpred, List.find?_append, hnone]
            simp [hnewPred]

/-- `votePortfolio` rejects with 400 (and leaves all state unchanged) when
the caller's existing vote record has the requested `voteType`. -/
theorem votePortfolio_of_duplicate (p : PortfolioDoc)
    (votes : List PortfolioVoteDoc) (userId : Option Nat)
    (ip : Option String) (t : VoteType) (newVoteId : Nat)
    (r : PortfolioVoteDoc)
    (hfind : findPortfolioVote votes p.id userId (ip.getD "anonymous") =
      some r)
    (ht : r.voteType = t) :
    votePortfolio p votes userId ip t newVoteId = (400, p, votes) := by
  unfold votePortfolio
  dsimp only
  rw [hfind]
  dsimp only
  rw [if_pos ht]

end StockForum

namespace StockForum

/-! ## Sample documents used by the witnesses -/

def emptyVotes : VoteState := ⟨0, 0, [], [], [], []⟩

def convA : ConversationDoc := ⟨1, 0, 0, [], [], [], []⟩

def convB : ConversationDoc := ⟨1, 1, 0, [7], [], [], []⟩

/-- Claim C1: for every target (stock, comment, conversation, portfolio
post) and every identity that already holds a vote of direction `d` on
that target, a second `applyVote` of the same direction `d` by the same
identity is rejected (HTTP 400, the `DuplicateVote` case), and all of the
target's counters and membership sets are unchanged from their state
after the first vote. Stated sequentially: whenever a first vote of
direction `d` succeeds (HTTP 200), repeating it returns 400 with the
state exactly as the first vote left it. For portfolio posts the
schema's compound unique partial indexes (`portfolioVoteIndexes`),
which the database enforces on every persisted vote collection, are
assumed of the initial state. -/
theorem claim_C1 :
    (∀ (c : CommentDoc) (v : Voter) (d : Dir) (c' : CommentDoc),
        CommentDoc.applyVote d c v = (200, c') →
        CommentDoc.applyVote d c' v = (400, c')) ∧
    (∀ (s : StockDoc) (v : Voter) (d : Dir) (s' : StockDoc),
        StockDoc.applyVote d s v = (200, s') →
        StockDoc.applyVote d s' v = (400, s')) ∧
    (∀ (c : ConversationDoc) (u : Nat) (c' : ConversationDoc),
        likeConversation c u = (200, c') →
        likeConversation c' u = (400, c')) ∧
    (∀ (p : PortfolioDoc) (votes : List PortfolioVoteDoc)
        (userId : Option Nat) (ip : Option String) (t : VoteType)
        (n1 n2 : Nat) (p' : PortfolioDoc) (votes' : List PortfolioVoteDoc),
        portfolioVoteIndexes votes →
        votePortfolio p votes userId ip t n1 = (200, p', votes') →
        votePortfolio p' votes' userId ip t n2 = (400, p', votes')) := by
  refine ⟨?_, ?_, ?_, ?_⟩
  · intro c v d c' h
    have h1 : (c.votes.applyVote d v).1 = 200 := congrArg Prod.fst h
    have h2 : { c with votes := (c.votes.applyVote d v).2 } = c' :=
      congrArg Prod.snd h
    have hvs : c.votes.applyVote d v = (200, (c.votes.applyVote d v).2) := by
      rw [← h1]
    have hholds : VoteState.holds d c'.votes v := by
      rw [← h2]
      exact VoteState.holds_of_applyVote_ok d c.votes v _ hvs
    have h400 := VoteState.applyVote_of_holds d c'.votes v hholds
    unfold CommentDoc.applyVote
    rw [h400]
  · intro s v d s' h
    have h1 : (s.votes.applyVote d v).1 = 200 := congrArg Prod.fst h
    have h2 : { s with votes := (s.votes.applyVote d v).2 } = s' :=
      congrArg Prod.snd h
    have hvs : s.votes.applyVote d v = (200, (s.votes.applyVote d v).2) := by
      rw [← h1]
    have hholds : VoteState.holds d s'.votes v := by
      rw [← h2]
      exact VoteState.holds_of_applyVote_ok d s.votes v _ hvs
    have h400 := VoteState.applyVote_of_holds d s'.votes v hholds
    unfold StockDoc.applyVote
    rw [h400]
  · intro c u c' h
    unfold likeConversation at h
    split at h
    · exact absurd h (by simp)
    · injection h with h1 h2
      subst h2
      have hmem : u ∈ c.likedBy ++ [u] := by simp
      simp [likeConversation, hmem]
  · intro p votes userId ip t n1 n2 p' votes' huniq h
    obtain ⟨hid, r, hfind, ht⟩ :=
      votePortfolio_ok_find p votes userId ip t n1 p' votes' huniq h
    exact votePortfolio_of_duplicate p' votes' userId ip t n2 r hfind ht

/-- Witness for C1 at a concrete input: user 7 likes a fresh conversation,
then likes it again; the second call is rejected with 400 and the state is
unchanged. -/
theorem claim_C1_witness : likeConversation convB 7 = (400, convB) :=
  claim_C1.2.2.1 convA 7 convB (by decide)

/-- Switching a like to a dislike on the embedded-array vote state: when
the identity holds a like, holds no dislike, and the like counter is
positive (as it is in any state actually produced by the handlers), the
dislike handler succeeds, moves the counters by one each way, and leaves
the identity in the dislike set but not the like set. -/
theorem VoteState.dislike_switch (s : VoteState) (v : Voter)
    (hl : s.alreadyLiked v) (hd : ¬ s.alreadyDisliked v)
    (hc : 1 ≤ s.likes) :
    (s.dislike v).1 = 200 ∧
    (s.dislike v).2.likes = s.likes - 1 ∧
    (s.dislike v).2.dislikes = s.dislikes + 1 ∧
    (s.dislike v).2.alreadyDisliked v ∧
    ¬ (s.dislike v).2.alreadyLiked v := by
  cases v with
  | auth u =>
    have hres : s.dislike (.auth u) =
        (200, { s with likedBy := s.likedBy.filter (fun i => i != u),
                       likes := max 0 (s.likes - 1),
                       dislikedBy := s.dislikedBy ++ [u],
                       dislikes := s.dislikes + 1 }) := by
      unfold dislike
      rw [if_neg hd]
      dsimp only
      rw [if_pos hl]
    rw [hres]
    refine ⟨rfl, by dsimp only; omega, rfl, ?_, ?_⟩
    · simp [alreadyDisliked]
    · simp [alreadyLiked, List.mem_filter]
  | anon fp =>
    have hres : s.dislike (.anon fp) =
        (200, { s with likedByAnonymous :=
                         s.likedByAnonymous.filter (fun i => i != fp),
                       likes := max 0 (s.likes - 1),
                       dislikedByAnonymous := s.dislikedByAnonymous ++ [fp],
                       dislikes := s.dislikes + 1 }) := by
      unfold dislike
      rw [if_neg hd]
      dsimp only
      rw [if_pos hl]
    rw [hres]
    refine ⟨rfl, by dsimp only; omega, rfl, ?_, ?_⟩
    · simp [alreadyDisliked]
    · simp [alreadyLiked, List.mem_filter]

/-- Switching an upvote to a downvote on a portfolio post: assuming the
schema's unique partial indexes, an existing upvote record and a
positive upvote counter, `votePortfolio` with `downvote` succeeds, moves
the counters by one each way, and afterwards every vote record of the
caller on this portfolio is the new downvote record (and one exists). -/
theorem votePortfolio_switch (p : PortfolioDoc)
    (votes : List PortfolioVoteDoc) (userId : Option Nat)
    (ip : Option String) (newVoteId : Nat) (r : PortfolioVoteDoc)
    (hfind : findPortfolioVote votes p.id userId (ip.getD "anonymous") =
      some r)
    (huniq : portfolioVoteIndexes votes)
    (hup : r.voteType = .upvote) (hc : 1 ≤ p.upvotes) :
    (votePortfolio p votes userId ip .downvote newVoteId).1 = 200 ∧
    (votePortfolio p votes userId ip .downvote newVoteId).2.1.upvotes =
      p.upvotes - 1 ∧
    (votePortfolio p votes userId ip .downvote newVoteId).2.1.downvotes =
      p.downvotes + 1 ∧
    (∀ q ∈ (votePortfolio p votes userId ip .downvote newVoteId).2.2,
        portfolioVotePred p.id userId (ip.getD "anonymous") q = true →
        q.voteType = .downvote) ∧
    (∃ q ∈ (votePortfolio p votes userId ip .downvote newVoteId).2.2,
        portfolioVotePred p.id userId (ip.getD "anonymous") q = true) := by
  classical
  set ci := ip.getD "anonymous" with hci
  set pred := portfolioVotePred p.id userId ci with hpred
  have hpredEv : pred r = true := by
    rw [hpred]
    rw [findPortfolioVote_eq_find] at hfind
    exact List.find?_some hfind
  have hmemEv : r ∈ votes := by
    rw [findPortfolioVote_eq_find] at hfind
    exact List.mem_of_find?_eq_some hfind
  have hres : votePortfolio p votes userId ip .downvote newVoteId =
      (200,
       { p with upvotes := max 0 (p.upvotes - 1),
                downvotes := p.downvotes + 1 },
       votes.filter (fun q => q.id != r.id) ++
         [{ id := newVoteId, portfolio := p.id, user := userId,
            voteType := .downvote,
            ipAddress := if userId.isSome then none else some ci }]) := by
    unfold votePortfolio
    dsimp only
    rw [← hci, hfind]
    dsimp only
    rw [if_neg (by simp [hup]), if_pos hup]
    unfold castPortfolioVote
    dsimp only
    rw [if_neg (by simp)]
  rw [hres]
  refine ⟨rfl, by dsimp; omega, rfl, ?_, ?_⟩
  · intro q hq hpq
    rcases List.mem_append.mp hq with hq | hq
    · exfalso
      have hqmem : q ∈ votes := (List.mem_filter.mp hq).1
      have hqid : q.id ≠ r.id := by
        have := (List.mem_filter.mp hq).2
        simpa using this
      have hle := portfolioVoteIndexes_filter_le_one votes huniq
        p.id userId ci
      have h1 : q ∈ votes.filter pred :=
        List.mem_filter.mpr ⟨hqmem, by rw [hpred] at hpq ⊢; exact hpq⟩
      have h2 : r ∈ votes.filter pred := List.mem_filter.mpr ⟨hmemEv, hpredEv⟩
      exact hqid (congrArg PortfolioVoteDoc.id
        (eq_of_mem_of_length_le_one hle h1 h2))
    · rw [List.mem_singleton] at hq
      rw [hq]
  · refine ⟨_, List.mem_append_right _ (List.mem_singleton.mpr rfl), ?_⟩
    cases userId <;> simp [hpred, portfolioVotePred]

/-- Claim C2: for every target and identity currently holding an up/like
vote (and not the opposite vote, with the like counter positive as in any
reachable state), `applyVote` of the opposite direction succeeds,
decrements the up counter by 1, increments the down counter by 1, and
leaves the identity a member of the down membership set only. Proved for
comment documents (`dislikeComment`), stock documents (`dislikeStock`,
same body), and portfolio posts (`votePortfolio` under the vote-record
schema's compound unique partial indexes). -/
theorem claim_C2 :
    (∀ (c : CommentDoc) (v : Voter),
        c.votes.alreadyLiked v → ¬ c.votes.alreadyDisliked v →
        1 ≤ c.votes.likes →
        (CommentDoc.applyVote .down c v).1 = 200 ∧
        (CommentDoc.applyVote .down c v).2.votes.likes =
          c.votes.likes - 1 ∧
        (CommentDoc.applyVote .down c v).2.votes.dislikes =
          c.votes.dislikes + 1 ∧
        (CommentDoc.applyVote .down c v).2.votes.alreadyDisliked v ∧
        ¬ (CommentDoc.applyVote .down c v).2.votes.alreadyLiked v) ∧
    (∀ (s : StockDoc) (v : Voter),
        s.votes.alreadyLiked v → ¬ s.votes.alreadyDisliked v →
        1 ≤ s.votes.likes →
        (StockDoc.applyVote .down s v).1 = 200 ∧
        (StockDoc.applyVote .down s v).2.votes.likes =
          s.votes.likes - 1 ∧
        (StockDoc.applyVote .down s v).2.votes.dislikes =
          s.votes.dislikes + 1 ∧
        (StockDoc.applyVote .down s v).2.votes.alreadyDisliked v ∧
        ¬ (StockDoc.applyVote .down s v).2.votes.alreadyLiked v) ∧
    (∀ (p : PortfolioDoc) (votes : List PortfolioVoteDoc)
        (userId : Option Nat) (ip : Option String) (newVoteId : Nat)
        (r : PortfolioVoteDoc),
        findPortfolioVote votes p.id userId (ip.getD "anonymous") =
          some r →
        portfolioVoteIndexes votes →
        r.voteType = .upvote → 1 ≤ p.upvotes →
        (votePortfolio p votes userId ip .downvote newVoteId).1 = 200 ∧
        (votePortfolio p votes userId ip .downvote newVoteId).2.1.upvotes =
          p.upvotes - 1 ∧
        (votePortfolio p votes userId ip .downvote newVoteId).2.1.downvotes =
          p.downvotes + 1 ∧
        (∀ q ∈ (votePortfolio p votes userId ip .downvote newVoteId).2.2,
            portfolioVotePred p.id userId (ip.getD "anonymous") q = true →
            q.voteType = .downvote) ∧
        (∃ q ∈ (votePortfolio p votes userId ip .downvote newVoteId).2.2,
            portfolioVotePred p.id userId (ip.getD "anonymous") q = true)) := by
  refine ⟨?_, ?_, ?_⟩
  · intro c v hl hd hc
    exact VoteState.dislike_switch c.votes v hl hd hc
  · intro s v hl hd hc
    exact VoteState.dislike_switch s.votes v hl hd hc
  · intro p votes userId ip newVoteId r hfind huniq hup hc
    exact votePortfolio_switch p votes userId ip newVoteId r hfind huniq hup hc

def commentLikedBy7 : CommentDoc :=
  ⟨3, "great stock", some 9, false, some 2, none, none,
    ⟨1, 0, [7], [], [], []⟩, false, 5⟩

/-- Witness for C2 at a concrete input: user 7, who holds a like on a
comment with `likes = 1`, dislikes it; the call succeeds. -/
theorem claim_C2_witness :
    (CommentDoc.applyVote .down commentLikedBy7 (.auth 7)).1 = 200 ∧
    (CommentDoc.applyVote .down commentLikedBy7 (.auth 7)).2.votes.likes = 0 :=
  ⟨(claim_C2.1 commentLikedBy7 (.auth 7)
      (by decide) (by decide) (by decide)).1,
   (claim_C2.1 commentLikedBy7 (.auth 7)
      (by decide) (by decide) (by decide)).2.1⟩

/-! ## C3: counter floors -/

/-- A conversation document whose `likes` counter is desynchronized from
its `likedBy` array (such a state is not produced by the handlers
themselves, but the claim quantifies over every decrement). -/
def convDesync : ConversationDoc := ⟨2, 0, 0, [7], [], [], []⟩

/-- Counterexample to C3 as stated: `unlikeConversation` decrements
`likes` without a floor (`conversation.likes -= 1`, line 190 of
`controllers/conversation.controller.js`), so on a state with `likes = 0`
and user 7 in `likedBy` it succeeds and drives `likes` to `-1`. -/
theorem claim_C3_counterexample :
    (unlikeConversation convDesync 7).1 = 200 ∧
    (unlikeConversation convDesync 7).2.likes = -1 := by decide

/-- The conversation states reachable from a freshly created conversation
(`createConversation` persists the schema defaults: counters 0, empty
membership arrays) by any sequence of `likeConversation` /
`unlikeConversation` calls; both the success and the rejection outcome of
each call are included. -/
inductive ConversationReachable : ConversationDoc → Prop where
  | init (id : Nat) :
      ConversationReachable ⟨id, 0, 0, [], [], [], []⟩
  | like (c c' : ConversationDoc) (u st : Nat) :
      ConversationReachable c → likeConversation c u = (st, c') →
      ConversationReachable c'
  | unlike (c c' : ConversationDoc) (u st : Nat) :
      ConversationReachable c → unlikeConversation c u = (st, c') →
      ConversationReachable c'

/-- The state invariant maintained by the conversation like/unlike pair:
no duplicate members, and the counter mirrors the membership size. -/
def ConversationInvariant (c : ConversationDoc) : Prop :=
  c.likedBy.Nodup ∧ c.likes = (c.likedBy.length : Int)

theorem length_filter_ne {l : List Nat} {u : Nat} (hn : l.Nodup)
    (hm : u ∈ l) : (l.filter (fun i => i != u)).length + 1 = l.length := by
  induction l with
  | nil => cases hm
  | cons a t ih =>
    rcases List.mem_cons.mp hm with h | h
    · have hnot : a ∉ t := (List.nodup_cons.mp hn).1
      have hfil : t.filter (fun i => i != u) = t := by
        rw [List.filter_eq_self]
        intro x hx
        simp only [bne_iff_ne, ne_eq, decide_eq_true_eq]
        intro hxu
        exact hnot (h ▸ hxu ▸ hx)
      simp [List.filter_cons, h.symm, hfil]
    · have hna : a ∉ t := (List.nodup_cons.mp hn).1
      have hau : a ≠ u := fun hau => hna (hau ▸ h)
      have := ih (List.nodup_cons.mp hn).2 h
      simp only [List.filter_cons, bne_iff_ne, ne_eq, hau,
        not_false_eq_true, decide_eq_true_eq, if_pos, List.length_cons]
      omega

theorem conversationReachable_invariant (c : ConversationDoc)
    (h : ConversationReachable c) : ConversationInvariant c := by
  induction h with
  | init id => exact ⟨List.nodup_nil, by simp⟩
  | like c c' u st _ hstep ih =>
    by_cases hmem : u ∈ c.likedBy
    · simp only [likeConversation, hmem, if_pos] at hstep
      injection hstep with h1 h2
      exact h2 ▸ ih
    · simp only [likeConversation, hmem, if_neg, not_false_eq_true] at hstep
      injection hstep with h1 h2
      rw [← h2]
      refine ⟨?_, ?_⟩
      · simpa [List.nodup_append] using ⟨ih.1, hmem⟩
      · dsimp only
        rw [ih.2]
        simp
  | unlike c c' u st _ hstep ih =>
    by_cases hmem : u ∈ c.likedBy
    · simp only [unlikeConversation, hmem, not_true_eq_false, if_neg,
        not_false_eq_true] at hstep
      injection hstep with h1 h2
      rw [← h2]
      refine ⟨ih.1.filter _, ?_⟩
      dsimp only
      have := length_filter_ne ih.1 hmem
      rw [ih.2]
      omega
    · simp only [unlikeConversation, hmem, not_false_eq_true, if_pos] at hstep
      injection hstep with h1 h2
      exact h2 ▸ ih

/-- The comment/stock like and dislike bodies preserve nonnegativity of
both counters from any state with nonnegative counters: every decrement
in them is clamped at 0. -/
theorem VoteState.applyVote_nonneg (d : Dir) (s : VoteState) (v : Voter)
    (hl : 0 ≤ s.likes) (hd : 0 ≤ s.dislikes) :
    0 ≤ (s.applyVote d v).2.likes ∧ 0 ≤ (s.applyVote d v).2.dislikes := by
  cases d with
  | up =>
    cases v with
    | auth u =>
      by_cases h1 : s.alreadyLiked (.auth u) <;>
        by_cases h2 : s.alreadyDisliked (.auth u) <;>
        simp [applyVote, like, h1, h2] <;> omega
    | anon fp =>
      by_cases h1 : s.alreadyLiked (.anon fp) <;>
        by_cases h2 : s.alreadyDisliked (.anon fp) <;>
        simp [applyVote, like, h1, h2] <;> omega
  | down =>
    cases v with
    | auth u =>
      by_cases h1 : s.alreadyLiked (.auth u) <;>
        by_cases h2 : s.alreadyDisliked (.auth u) <;>
        simp [applyVote, dislike, h1, h2] <;> omega
    | anon fp =>
      by_cases h1 : s.alreadyLiked (.anon fp) <;>
        by_cases h2 : s.alreadyDisliked (.anon fp) <;>
        simp [applyVote, dislike, h1, h2] <;> omega

/-- `votePortfolio` preserves nonnegativity of both counters: its
decrements are clamped at 0 and its increments only add. -/
theorem votePortfolio_nonneg (p : PortfolioDoc)
    (votes : List PortfolioVoteDoc) (userId : Option Nat)
    (ip : Option String) (t : VoteType) (n : Nat)
    (hu : 0 ≤ p.upvotes) (hd : 0 ≤ p.downvotes) :
    0 ≤ (votePortfolio p votes userId ip t n).2.1.upvotes ∧
    0 ≤ (votePortfolio p votes userId ip t n).2.1.downvotes := by
  unfold votePortfolio castPortfolioVote
  dsimp only
  rcases findPortfolioVote votes p.id userId (ip.getD "anonymous")
    with _ | ev
  · dsimp only
    rcases t <;> simp <;> omega
  · dsimp only
    by_cases h1 : ev.voteType = t
    · rw [if_pos h1]
      exact ⟨hu, hd⟩
    · rw [if_neg h1]
      rcases h2 : ev.voteType <;> rcases t <;> simp <;> omega

/-- `removeVote` preserves nonnegativity of both counters: its decrements
are clamped at 0. -/
theorem removeVote_nonneg (p : PortfolioDoc)
    (votes : List PortfolioVoteDoc) (userId : Option Nat)
    (ip : Option String) (hu : 0 ≤ p.upvotes) (hd : 0 ≤ p.downvotes) :
    0 ≤ (removeVote p votes userId ip).2.1.upvotes ∧
    0 ≤ (removeVote p votes userId ip).2.1.downvotes := by
  unfold removeVote
  dsimp only
  rcases findPortfolioVote votes p.id userId (ip.getD "anonymous")
    with _ | ev
  · exact ⟨hu, hd⟩
  · dsimp only
    rcases h2 : ev.voteType <;> simp <;> omega

/-- Claim C3 (amended): the decrements in the comment/stock like–dislike
handlers and in the portfolio `votePortfolio` / `removeVote` handlers are
clamped at a floor of 0, so those operations preserve nonnegativity of
all vote counters from any nonnegative state; `unlikeConversation`
decrements without a clamp, but every conversation state reachable from
a fresh conversation by any sequence of like/unlike operations keeps
`likes` equal to the size of `likedBy`, hence nonnegative. -/
theorem claim_C3_amended :
    (∀ c : ConversationDoc, ConversationReachable c → 0 ≤ c.likes) ∧
    (∀ (d : Dir) (s : VoteState) (v : Voter),
        0 ≤ s.likes → 0 ≤ s.dislikes →
        0 ≤ (s.applyVote d v).2.likes ∧
        0 ≤ (s.applyVote d v).2.dislikes) ∧
    (∀ (p : PortfolioDoc) (votes : List PortfolioVoteDoc)
        (userId : Option Nat) (ip : Option String) (t : VoteType) (n : Nat),
        0 ≤ p.upvotes → 0 ≤ p.downvotes →
        0 ≤ (votePortfolio p votes userId ip t n).2.1.upvotes ∧
        0 ≤ (votePortfolio p votes userId ip t n).2.1.downvotes) ∧
    (∀ (p : PortfolioDoc) (votes : List PortfolioVoteDoc)
        (userId : Option Nat) (ip : Option String),
        0 ≤ p.upvotes → 0 ≤ p.downvotes →
        0 ≤ (removeVote p votes userId ip).2.1.upvotes ∧
        0 ≤ (removeVote p votes userId ip).2.1.downvotes) := by
  refine ⟨?_, VoteState.applyVote_nonneg, votePortfolio_nonneg,
    removeVote_nonneg⟩
  intro c h
  rw [(conversationReachable_invariant c h).2]
  positivity

/-- Witness for the amended C3 at a concrete input: the conversation
reached by one successful like from user 7 has a nonnegative counter. -/
theorem claim_C3_amended_witness : 0 ≤ convB.likes :=
  claim_C3_amended.1 convB
    (ConversationReachable.like convA convB 7 200
      (ConversationReachable.init 1) (by decide))

end StockForum

namespace StockForum

/-! ## Sorting by a numeric key (model of the `createdAt` sorts)

`Comment.find(...).sort({ createdAt: -1 })` returns the documents sorted
by `createdAt` descending, and the tree builder sorts each `replies`
array with the comparator `(a, b) => new Date(a.createdAt) - new
Date(b.createdAt)` (ascending). Both are modelled by an insertion sort
keyed on `createdAt`. -/

def insertAscBy {α : Type} (key : α → Nat) (c : α) : List α → List α
  | [] => [c]
  | x :: xs => if key c ≤ key x then c :: x :: xs else x :: insertAscBy key c xs

def sortAscBy {α : Type} (key : α → Nat) : List α → List α
  | [] => []
  | x :: xs => insertAscBy key x (sortAscBy key xs)

def insertDescBy {α : Type} (key : α → Nat) (c : α) : List α → List α
  | [] => [c]
  | x :: xs => if key x ≤ key c then c :: x :: xs else x :: insertDescBy key c xs

def sortDescBy {α : Type} (key : α → Nat) : List α → List α
  | [] => []
  | x :: xs => insertDescBy key x (sortDescBy key xs)

theorem perm_insertAscBy {α : Type} (key : α → Nat) (c : α) (l : List α) :
    (insertAscBy key c l).Perm (c :: l) := by
  induction l with
  | nil => exact List.Perm.refl _
  | cons x xs ih =>
    unfold insertAscBy
    split
    · exact List.Perm.refl _
    · exact ((ih.cons x).trans (List.Perm.swap c x xs))

theorem perm_sortAscBy {α : Type} (key : α → Nat) (l : List α) :
    (sortAscBy key l).Perm l := by
  induction l with
  | nil => exact List.Perm.refl _
  | cons x xs ih =>
    exact (perm_insertAscBy key x (sortAscBy key xs)).trans (ih.cons x)

theorem perm_insertDescBy {α : Type} (key : α → Nat) (c : α) (l : List α) :
    (insertDescBy key c l).Perm (c :: l) := by
  induction l with
  | nil => exact List.Perm.refl _
  | cons x xs ih =>
    unfold insertDescBy
    split
    · exact List.Perm.refl _
    · exact ((ih.cons x).trans (List.Perm.swap c x xs))

theorem perm_sortDescBy {α : Type} (key : α → Nat) (l : List α) :
    (sortDescBy key l).Perm l := by
  induction l with
  | nil => exact List.Perm.refl _
  | cons x xs ih =>
    exact (perm_insertDescBy key x (sortDescBy key xs)).trans (ih.cons x)

theorem pairwise_insertAscBy {α : Type} (key : α → Nat) (c : α)
    {l : List α} (h : l.Pairwise (fun a b => key a ≤ key b)) :
    (insertAscBy key c l).Pairwise (fun a b => key a ≤ key b) := by
  induction l with
  | nil => simp [insertAscBy]
  | cons x xs ih =>
    unfold insertAscBy
    split
    · rename_i hcx
      refine List.pairwise_cons.mpr ⟨?_, h⟩
      intro y hy
      rcases List.mem_cons.mp hy with hy | hy
      · exact hy ▸ hcx
      · exact le_trans hcx ((List.pairwise_cons.mp h).1 y hy)
    · rename_i hcx
      refine List.pairwise_cons.mpr ⟨?_, ih (List.pairwise_cons.mp h).2⟩
      intro y hy
      rcases List.mem_cons.mp
          ((perm_insertAscBy key c xs).mem_iff.mp hy) with hy | hy
      · subst hy
        omega
      · exact (List.pairwise_cons.mp h).1 y hy

theorem pairwise_sortAscBy {α : Type} (key : α → Nat) (l : List α) :
    (sortAscBy key l).Pairwise (fun a b => key a ≤ key b) := by
  induction l with
  | nil => simp [sortAscBy]
  | cons x xs ih => exact pairwise_insertAscBy key x ih

theorem pairwise_insertDescBy {α : Type} (key : α → Nat) (c : α)
    {l : List α} (h : l.Pairwise (fun a b => key b ≤ key a)) :
    (insertDescBy key c l).Pairwise (fun a b => key b ≤ key a) := by
  induction l with
  | nil => simp [insertDescBy]
  | cons x xs ih =>
    unfold insertDescBy
    split
    · rename_i hxc
      refine List.pairwise_cons.mpr ⟨?_, h⟩
      intro y hy
      rcases List.mem_cons.mp hy with hy | hy
      · exact hy ▸ hxc
      · exact le_trans ((List.pairwise_cons.mp h).1 y hy) hxc
    · rename_i hxc
      refine List.pairwise_cons.mpr ⟨?_, ih (List.pairwise_cons.mp h).2⟩
      intro y hy
      rcases List.mem_cons.mp
          ((perm_insertDescBy key c xs).mem_iff.mp hy) with hy | hy
      · subst hy
        omega
      · exact (List.pairwise_cons.mp h).1 y hy

theorem pairwise_sortDescBy {α : Type} (key : α → Nat) (l : List α) :
    (sortDescBy key l).Pairwise (fun a b => key b ≤ key a) := by
  induction l with
  | nil => simp [sortDescBy]
  | cons x xs ih => exact pairwise_insertDescBy key x ih

/-! ## The comment tree builder (C5, C6) -/

/-- A comment document as consumed by the tree builder: its id, optional
parent-comment reference and creation date (the other fields are carried
along by the handler but play no role in the tree shape). -/
structure FlatComment where
  id : Nat
  parentComment : Option Nat
  createdAt : Nat
  content : String
deriving DecidableEq, Repr

/-- A top-level comment with its attached `replies` list, as returned by
`getStockComments` / `getPortfolioComments`. -/
structure ThreadedComment where
  comment : FlatComment
  replies : List FlatComment
deriving DecidableEq, Repr

/-- The two-pass tree construction of `getStockComments`
(`controllers/comment.controller.js` lines 62-89) and
`getPortfolioComments` (`controllers/portfolio.controller.js` lines
544-572), as a function of the flat query result `allComments`: pass 1
indexes every comment by id (`commentMap`) and gives it an empty
`replies` array; pass 2 walks the list in order, appending each comment
with a non-null `parentComment` to the `replies` of the indexed parent if
the parent resolves (otherwise the comment is dropped), and collecting
the comments with a null `parentComment` into `topLevelComments`;
finally each top-level comment's `replies` are sorted ascending by
`createdAt`. Since database ids are unique, `commentMap[pid]` is the
unique list element with id `pid`, so the replies accumulated for a
top-level comment `c` are exactly the elements whose `parentComment` is
`some c.id`, in list order — which the final sort then orders by
`createdAt`. -/
def buildCommentTree (allComments : List FlatComment) :
    List ThreadedComment :=
  (allComments.filter (fun c => c.parentComment == none)).map (fun c =>
    { comment := c
      replies := sortAscBy (fun r => r.createdAt)
        (allComments.filter (fun r => r.parentComment == some c.id)) })

/-- `getStockComments` (`controllers/comment.controller.js` lines 56-91):
the database query returns the stock's comments sorted by `createdAt`
descending, and the tree is built from that list.
`getPortfolioComments` is identical. -/
def getStockCommentsTree (stockComments : List FlatComment) :
    List ThreadedComment :=
  buildCommentTree (sortDescBy (fun c => c.createdAt) stockComments)

/-- Claim C5: a comment whose non-null `parentComment` does not resolve
to any comment in the flat set appears nowhere in the returned tree — it
is neither a top-level node nor a member of any `replies` list. -/
theorem claim_C5 (stockComments : List FlatComment) (o : FlatComment)
    (pid : Nat) (hp : o.parentComment = some pid)
    (hmissing : ∀ c ∈ stockComments, c.id ≠ pid) :
    ∀ node ∈ getStockCommentsTree stockComments,
      node.comment ≠ o ∧ o ∉ node.replies := by
  intro node hnode
  unfold getStockCommentsTree buildCommentTree at hnode
  rcases List.mem_map.mp hnode with ⟨c, hc, hceq⟩
  have hctop : c.parentComment = none := by
    have := (List.mem_filter.mp hc).2
    simpa using this
  have hcmem : c ∈ stockComments :=
    (perm_sortDescBy (fun c => c.createdAt) stockComments).mem_iff.mp
      (List.mem_filter.mp hc).1
  constructor
  · intro hco
    rw [← hceq] at hco
    dsimp only at hco
    rw [hco, hp] at hctop
    cases hctop
  · intro ho
    rw [← hceq] at ho
    dsimp only at ho
    have ho2 := (perm_sortAscBy (fun r : FlatComment => r.createdAt) _).mem_iff.mp ho
    have hop : o.parentComment = some c.id := by
      have := (List.mem_filter.mp ho2).2
      simpa using this
    rw [hp] at hop
    injection hop with hop
    exact hmissing c hcmem hop.symm

def demoOrphan : FlatComment := ⟨11, some 99, 8, "orphan"⟩

def demoTop : FlatComment := ⟨10, none, 5, "top"⟩

/-- Witness for C5 at a concrete input: a two-element comment set with a
top-level comment and an orphaned reply; the orphan is absent from the
only node of the tree. -/
theorem claim_C5_witness :
    (⟨demoTop, []⟩ : ThreadedComment).comment ≠ demoOrphan ∧
      demoOrphan ∉ (⟨demoTop, []⟩ : ThreadedComment).replies :=
  claim_C5 [demoTop, demoOrphan] demoOrphan 99 (by decide) (by decide)
    ⟨demoTop, []⟩ (by decide)

/-- Claim C6: in the tree returned by the comment-listing handlers, the
top-level comments are ordered newest-first by creation date, and within
every top-level comment the `replies` list is ordered oldest-first by
creation date. -/
theorem claim_C6 (stockComments : List FlatComment) :
    (getStockCommentsTree stockComments).Pairwise
      (fun a b => b.comment.createdAt ≤ a.comment.createdAt) ∧
    ∀ node ∈ getStockCommentsTree stockComments,
      node.replies.Pairwise (fun a b => a.createdAt ≤ b.createdAt) := by
  constructor
  · unfold getStockCommentsTree buildCommentTree
    rw [List.pairwise_map]
    exact (pairwise_sortDescBy (fun c => c.createdAt) stockComments).sublist
      (List.filter_sublist _)
  · intro node hnode
    unfold getStockCommentsTree buildCommentTree at hnode
    rcases List.mem_map.mp hnode with ⟨c, hc, hceq⟩
    rw [← hceq]
    exact pairwise_sortAscBy (fun r : FlatComment => r.createdAt) _

end StockForum

namespace StockForum

/-! ## The stock-comment store: `createComment` and `deleteComment` -/

/-- The persistent state the stock-comment handlers touch: the `Comment`
collection and the `Stock` collection. -/
structure StockCommentStore where
  comments : List CommentDoc
  stocks : List StockDoc
deriving DecidableEq, Repr

/-- `Stock.findById`. -/
def findStock (stocks : List StockDoc) (id : Nat) : Option StockDoc :=
  stocks.find? (fun s => s.id == id)

/-- `stock.save()` on a fetched-and-mutated stock document: the document
with the same id is replaced in the collection. -/
def updateStockIn (stocks : List StockDoc) (s : StockDoc) : List StockDoc :=
  stocks.map (fun x => if x.id == s.id then s else x)

/-- The `lastComment` excerpt: `content.length > 200 ?
content.substring(0, 197) + "..." : content`. -/
def truncateContent (content : String) : String :=
  if content.length > 200 then content.take 197 ++ "..." else content

/-- Whitespace test used by the trim model (the common whitespace
characters of `String.prototype.trim`). -/
def isTrimWs (c : Char) : Bool :=
  c == ' ' || c == '\t' || c == '\n' || c == '\r'

/-- Executable model of JS `String.prototype.trim` / the mongoose
`trim: true` cast: strip leading and trailing whitespace. -/
def strTrim (s : String) : String :=
  ⟨((s.data.dropWhile isTrimWs).reverse.dropWhile isTrimWs).reverse⟩

/-- The validation `comment.save()` performs (`models/comment.model.js`):
the schema trims `content` at cast time and then requires it non-empty
(so the check applies to the stored, already-trimmed value), and the
pre-save hook requires exactly one of stock/conversation and an author
for non-anonymous comments. (The hook's author-nulling branch for
anonymous comments never fires for documents built by the handlers,
which already set `author` to null when anonymous.) -/
def commentSaveValid (c : CommentDoc) : Bool :=
  !(c.content == "") &&
  !(c.stock == none && c.conversation == none) &&
  !(c.stock != none && c.conversation != none) &&
  !(!c.isAnonymous && c.author == none)

/-- Request body of `createComment`
(`controllers/comment.controller.js`). -/
structure CreateCommentRequest where
  content : String
  stockId : Nat
  parentCommentId : Option Nat
  isAnonymous : Bool
deriving DecidableEq, Repr

/-- `createComment` (`controllers/comment.controller.js` lines 109-162):
build the comment document — with NO validation of `parentCommentId` —
and save it (500 on schema validation failure); then, only if
`Stock.findById(stockId)` finds a stock, set its `lastComment` snapshot
and increment its `commentCount`; respond 201. `now` models
`Date.now()` / the `createdAt` default, `newId` the generated ObjectId,
`username` the optional `req.user?.username`. -/
def createComment (store : StockCommentStore) (req : CreateCommentRequest)
    (userId : Option Nat) (username : Option String) (now newId : Nat) :
    Nat × StockCommentStore :=
  let shouldBeAnonymous := req.isAnonymous || userId.isNone
  let comment : CommentDoc :=
    { id := newId
      content := strTrim req.content
      author := if shouldBeAnonymous then none else userId
      isAnonymous := shouldBeAnonymous
      stock := some req.stockId
      conversation := none
      parentComment := req.parentCommentId
      votes := ⟨0, 0, [], [], [], []⟩
      isReply := req.parentCommentId.isSome
      createdAt := now }
  if !commentSaveValid comment then
    (500, store)
  else
    let comments1 := store.comments ++ [comment]
    match findStock store.stocks req.stockId with
    | none => (201, { store with comments := comments1 })
    | some stock =>
        let stock1 :=
          { stock with
              lastComment := some
                { content := truncateContent req.content
                  author := if shouldBeAnonymous then "Anonymous"
                            else username.getD "Anonymous"
                  authorId := if shouldBeAnonymous then none else userId
                  date := now
                  commentId := newId }
              commentCount := stock.commentCount + 1 }
        (201, { comments := comments1,
                stocks := updateStockIn store.stocks stock1 })

/-- The `lastComment` snapshot built from a promoted comment in
`deleteComment` (lines 268-280): author label from the populated
username, "Anonymous" for anonymous comments or a missing username. -/
def mkPromotedLastComment (c : CommentDoc)
    (lookupUsername : Nat → Option String) : LastComment :=
  { content := truncateContent c.content
    author := if c.isAnonymous then "Anonymous"
              else (c.author.bind lookupUsername).getD "Anonymous"
    authorId := if c.isAnonymous then none else c.author
    date := c.createdAt
    commentId := c.id }

/-- `Comment.findOne({ stock: stockId }).sort({ createdAt: -1 })`: the
first element of the stock's comments sorted newest-first. -/
def mostRecentStockComment (comments : List CommentDoc) (stockId : Nat) :
    Option CommentDoc :=
  (sortDescBy (fun c => c.createdAt)
    (comments.filter (fun c => c.stock == some stockId))).head?

/-- `deleteComment` (`controllers/comment.controller.js` lines 230-300):
404 if the comment is missing; 403 unless the caller is the
non-anonymous author; otherwise delete the comment, and if its stock
exists: when the deleted comment was the stock's current `lastComment`
(matched by the stored `commentId`), promote the most recent surviving
comment (or null), and decrement `commentCount` floored at 0. -/
def deleteComment (store : StockCommentStore) (id : Nat)
    (userId : Option Nat) (lookupUsername : Nat → Option String) :
    Nat × StockCommentStore :=
  match store.comments.find? (fun c => c.id == id) with
  | none => (404, store)
  | some comment =>
      if comment.isAnonymous ∨ comment.author = none ∨
          comment.author ≠ userId then
        (403, store)
      else
        let comments1 := store.comments.eraseP (fun c => c.id == id)
        match comment.stock with
        | none => (200, { store with comments := comments1 })
        | some sid =>
            match findStock store.stocks sid with
            | none => (200, { store with comments := comments1 })
            | some stock =>
                let stock1 :=
                  match stock.lastComment with
                  | some lc =>
                      if lc.commentId == id then
                        match mostRecentStockComment comments1 sid with
                        | some nextComment =>
                            { stock with
                                lastComment :=
                                  some (mkPromotedLastComment nextComment
                                    lookupUsername) }
                        | none => { stock with lastComment := none }
                      else stock
                  | none => stock
                let stock2 :=
                  { stock1 with
                      commentCount := max 0 (stock1.commentCount - 1) }
                (200, { comments := comments1,
                        stocks := updateStockIn store.stocks stock2 })

end StockForum

namespace StockForum

/-! ## Lemmas for C4 -/

theorem findStock_updateStockIn (stocks : List StockDoc)
    (s s' : StockDoc) (sid : Nat) (h : findStock stocks sid = some s)
    (hid : s'.id = s.id) :
    findStock (updateStockIn stocks s') sid = some s' := by
  have hsid : s.id = sid := by
    have := List.find?_some h
    simpa using this
  induction stocks with
  | nil => simp [findStock] at h
  | cons x xs ih =>
    by_cases hx : x.id = sid
    · have hfound : x = s := by
        unfold findStock at h
        rw [List.find?_cons_of_pos _ (by simpa using hx)] at h
        injection h
      unfold findStock updateStockIn
      rw [List.map_cons,
        if_pos (by simp [hx, hid, hsid, hfound]),
        List.find?_cons_of_pos _ (by simp [hid, hsid])]
    · have hrec : findStock xs sid = some s := by
        unfold findStock at h
        rw [List.find?_cons_of_neg _ (by simpa using hx)] at h
        exact h
      unfold findStock updateStockIn
      rw [List.map_cons, if_neg (by simp [hid, hsid, hx]),
        List.find?_cons_of_neg _ (by simpa using hx)]
      exact ih hrec

theorem find?_decomp {α : Type} (p : α → Bool) (l : List α) (a : α)
    (h : l.find? p = some a) :
    ∃ l₁ l₂, (∀ b ∈ l₁, p b = false) ∧ l = l₁ ++ a :: l₂ ∧
      l.eraseP p = l₁ ++ l₂ := by
  induction l with
  | nil => simp at h
  | cons x xs ih =>
    by_cases hx : p x
    · rw [List.find?_cons_of_pos _ hx] at h
      injection h with h
      subst h
      exact ⟨[], xs, by simp, rfl, by simp [List.eraseP_cons, hx]⟩
    · rw [List.find?_cons_of_neg _ (by simpa using hx)] at h
      obtain ⟨l₁, l₂, hl1, hl, he⟩ := ih h
      refine ⟨x :: l₁, l₂, ?_, by rw [hl, List.cons_append], ?_⟩
      · intro b hb
        rcases List.mem_cons.mp hb with hb | hb
        · subst hb
          simpa using hx
        · exact hl1 b hb
      · simp [List.eraseP_cons, hx, he]

/-- Deleting the comment found by `find?` removes exactly one element
from the stock's comment set (counted through any filter the deleted
element satisfies). -/
theorem length_filter_eraseP {α : Type} (p q : α → Bool) (l : List α)
    (a : α) (h : l.find? p = some a) (hq : q a = true) :
    (l.filter q).length = ((l.eraseP p).filter q).length + 1 := by
  obtain ⟨l₁, l₂, _, hl, he⟩ := find?_decomp p l a h
  rw [he, hl]
  simp only [List.filter_append, List.filter_cons, hq, if_pos,
    List.length_append, List.length_cons]
  omega

theorem head?_sortDescBy {α : Type} (key : α → Nat) (l : List α) (a : α)
    (h : (sortDescBy key l).head? = some a) :
    a ∈ l ∧ ∀ b ∈ l, key b ≤ key a := by
  rcases hs : sortDescBy key l with _ | ⟨x, xs⟩
  · rw [hs] at h
    cases h
  · rw [hs] at h
    injection h with h
    subst h
    constructor
    · exact (perm_sortDescBy key l).mem_iff.mp
        (by rw [hs]; exact List.mem_cons_self _ _)
    · intro b hb
      have hb2 : b ∈ x :: xs := by
        rw [← hs]
        exact (perm_sortDescBy key l).mem_iff.mpr hb
      rcases List.mem_cons.mp hb2 with hb2 | hb2
      · exact hb2 ▸ le_refl _
      · have hp := pairwise_sortDescBy key l
        rw [hs] at hp
        exact (List.pairwise_cons.mp hp).1 b hb2

/-- Claim C4: when the comment being deleted is its stock's current
`lastComment` (matched by the stored `commentId`), deletion promotes the
most recent surviving comment of the stock into `lastComment` (or null
when none survives), and decrements `commentCount` (floored at 0); with
`commentCount` in sync with the live comment count, deleting the only
remaining comment yields `lastComment = null` and `commentCount = 0`. -/
theorem claim_C4 (store : StockCommentStore) (id u sid : Nat)
    (comment : CommentDoc) (stock : StockDoc) (lc : LastComment)
    (lookupUsername : Nat → Option String)
    (hfind : store.comments.find? (fun c => c.id == id) = some comment)
    (hanon : comment.isAnonymous = false)
    (hauthor : comment.author = some u)
    (hstockref : comment.stock = some sid)
    (hstock : findStock store.stocks sid = some stock)
    (hlc : stock.lastComment = some lc)
    (hlcid : lc.commentId = id)
    (hwf : stock.commentCount =
      ((store.comments.filter (fun c => c.stock == some sid)).length :
        Int)) :
    (deleteComment store id (some u) lookupUsername).1 = 200 ∧
    (deleteComment store id (some u) lookupUsername).2.comments =
      store.comments.eraseP (fun c => c.id == id) ∧
    ∃ st',
      findStock (deleteComment store id (some u) lookupUsername).2.stocks
        sid = some st' ∧
      st'.commentCount = stock.commentCount - 1 ∧
      ((store.comments.eraseP (fun c => c.id == id)).filter
          (fun c => c.stock == some sid) = [] →
        st'.lastComment = none ∧ st'.commentCount = 0) ∧
      (∀ n, mostRecentStockComment
          (store.comments.eraseP (fun c => c.id == id)) sid = some n →
        st'.lastComment = some (mkPromotedLastComment n lookupUsername) ∧
        n ∈ (store.comments.eraseP (fun c => c.id == id)).filter
          (fun c => c.stock == some sid) ∧
        ∀ m ∈ (store.comments.eraseP (fun c => c.id == id)).filter
            (fun c => c.stock == some sid),
          m.createdAt ≤ n.createdAt) := by
  have hqc : (fun c : CommentDoc => c.stock == some sid) comment = true := by
    simp [hstockref]
  have hcount := length_filter_eraseP (fun c => c.id == id)
    (fun c => c.stock == some sid) store.comments comment hfind hqc
  set comments1 := store.comments.eraseP (fun c => c.id == id) with hc1
  rcases hmr : mostRecentStockComment comments1 sid with _ | n
  · have hres : deleteComment store id (some u) lookupUsername =
        (200, { comments := comments1,
                stocks := updateStockIn store.stocks
                  { stock with
                      lastComment := none,
                      commentCount := max 0 (stock.commentCount - 1) } }) := by
      unfold deleteComment
      rw [hfind]
      dsimp only
      rw [if_neg (by simp [hanon, hauthor]), hstockref]
      dsimp only
      rw [hstock]
      dsimp only
      rw [hlc]
      dsimp only
      rw [if_pos (by simp [hlcid]), ← hc1, hmr]
    rw [hres]
    refine ⟨rfl, rfl, ?_⟩
    refine ⟨_, findStock_updateStockIn store.stocks stock _ sid hstock rfl,
      ?_, ?_, ?_⟩
    · dsimp only
      omega
    · intro hsurv
      have hlen : (comments1.filter
          (fun c => c.stock == some sid)).length = 0 := by
        rw [hsurv]
        rfl
      exact ⟨rfl, by dsimp only; omega⟩
    · intro n hn
      exact Option.noConfusion hn
  · have hres : deleteComment store id (some u) lookupUsername =
        (200, { comments := comments1,
                stocks := updateStockIn store.stocks
                  { stock with
                      lastComment :=
                        some (mkPromotedLastComment n lookupUsername),
                      commentCount := max 0 (stock.commentCount - 1) } }) := by
      unfold deleteComment
      rw [hfind]
      dsimp only
      rw [if_neg (by simp [hanon, hauthor]), hstockref]
      dsimp only
      rw [hstock]
      dsimp only
      rw [hlc]
      dsimp only
      rw [if_pos (by simp [hlcid]), ← hc1, hmr]
    rw [hres]
    refine ⟨rfl, rfl, ?_⟩
    refine ⟨_, findStock_updateStockIn store.stocks stock _ sid hstock rfl,
      ?_, ?_, ?_⟩
    · dsimp only
      omega
    · intro hsurv
      exfalso
      unfold mostRecentStockComment at hmr
      rw [hsurv] at hmr
      simp [sortDescBy] at hmr
    · intro m hm
      have hm2 : n = m := by injection hm
      subst hm2
      unfold mostRecentStockComment at hmr
      have hhead := head?_sortDescBy (fun c : CommentDoc => c.createdAt)
        (comments1.filter (fun c => c.stock == some sid)) n hmr
      exact ⟨rfl, hhead.1, hhead.2⟩

def demoC1 : CommentDoc :=
  ⟨20, "older comment", some 9, false, some 2, none, none,
    ⟨0, 0, [], [], [], []⟩, false, 1⟩

def demoC2 : CommentDoc :=
  ⟨21, "newest comment", some 9, false, some 2, none, none,
    ⟨0, 0, [], [], [], []⟩, false, 3⟩

def demoLC : LastComment := ⟨"newest comment", "alice", some 9, 3, 21⟩

def demoStock : StockDoc := ⟨2, ⟨0, 0, [], [], [], []⟩, 2, some demoLC⟩

def demoStore : StockCommentStore :=
  ⟨[demoC1, demoC2], [demoStock]⟩

/-- Witness for C4 at a concrete input: user 9 deletes comment 21 (the
stock's current `lastComment`); the call succeeds. -/
theorem claim_C4_witness :
    (deleteComment demoStore 21 (some 9) (fun _ => none)).1 = 200 :=
  (claim_C4 demoStore 21 9 2 demoC2 demoStock demoLC (fun _ => none)
    (by decide) (by decide) (by decide) (by decide) (by decide)
    (by decide) (by decide) (by decide)).1

/-- Claim C9: when the request's `stockId` matches no existing stock,
`createComment` still persists the comment and responds 201, and no
stock is touched (no `commentCount` increment, no `lastComment` update):
the handler saves the comment unconditionally and only updates aggregates
when `Stock.findById(stockId)` finds a document. -/
theorem claim_C9 (store : StockCommentStore) (req : CreateCommentRequest)
    (userId : Option Nat) (username : Option String) (now newId : Nat)
    (hcontent : strTrim req.content ≠ "")
    (hnostock : ∀ s ∈ store.stocks, s.id ≠ req.stockId) :
    (createComment store req userId username now newId).1 = 201 ∧
    (createComment store req userId username now newId).2.stocks =
      store.stocks ∧
    ∃ c, (createComment store req userId username now newId).2.comments =
        store.comments ++ [c] ∧
      c.content = strTrim req.content ∧
      c.stock = some req.stockId ∧
      c.parentComment = req.parentCommentId ∧
      c.id = newId := by
  have hvalid : ∀ (a : Option Nat) (b : Bool),
      commentSaveValid
        { id := newId, content := strTrim req.content,
          author := if (b || a.isNone : Bool) then none else a,
          isAnonymous := (b || a.isNone : Bool),
          stock := some req.stockId, conversation := none,
          parentComment := req.parentCommentId,
          votes := ⟨0, 0, [], [], [], []⟩,
          isReply := req.parentCommentId.isSome,
          createdAt := now } = true := by
    intro a b
    rcases a with _ | u <;> rcases b <;>
      simp [commentSaveValid, hcontent]
  have hnone : findStock store.stocks req.stockId = none := by
    unfold findStock
    rw [List.find?_eq_none]
    intro s hs
    simpa using hnostock s hs
  unfold createComment
  simp only [hvalid userId req.isAnonymous, Bool.not_true, hnone]
  exact ⟨rfl, rfl, _, rfl, rfl, rfl, rfl, rfl⟩

def noStockReq : CreateCommentRequest := ⟨"hi there", 5, none, false⟩

/-- Witness for C9 at a concrete input: creating a comment against the
empty store (so stock 5 does not exist) still returns 201. -/
theorem claim_C9_witness :
    (createComment ⟨[], []⟩ noStockReq (some 9) (some "alice") 4 30).1 =
      201 :=
  (claim_C9 ⟨[], []⟩ noStockReq (some 9) (some "alice") 4 30
    (by decide) (by decide)).1

/-! ## C7: parent-comment validation -/

/-- A document of the `PortfolioComment` collection
(`models/portfolioComment.model.js`), restricted to the fields the
handlers touch. -/
structure PortfolioCommentDoc where
  id : Nat
  content : String
  author : Option Nat
  isAnonymous : Bool
  portfolio : Nat
  parentComment : Option Nat
  isReply : Bool
  createdAt : Nat
deriving DecidableEq, Repr

/-- The persistent state `createPortfolioComment` touches. -/
structure PortfolioStore where
  posts : List PortfolioDoc
  comments : List PortfolioCommentDoc
deriving DecidableEq, Repr

/-- `PortfolioPost.findById`. -/
def findPortfolio (posts : List PortfolioDoc) (id : Nat) :
    Option PortfolioDoc :=
  posts.find? (fun p => p.id == id)

/-- `portfolio.save()` on a fetched-and-mutated portfolio document. -/
def updatePortfolioIn (posts : List PortfolioDoc) (p : PortfolioDoc) :
    List PortfolioDoc :=
  posts.map (fun x => if x.id == p.id then p else x)

/-- `createPortfolioComment` (`controllers/portfolio.controller.js`
lines 592-696): validate non-empty content (400), presence of
`portfolioId` (400), existence of the portfolio (404), and — when
`parentCommentId` is given — existence of the referenced parent comment
(404, before anything is persisted); then persist the comment, update
the portfolio's `lastComment` snapshot and increment its `commentCount`,
and respond 201. (The ObjectId-format checks are subsumed by modelling
ids as `Nat`.) -/
def createPortfolioComment (store : PortfolioStore) (content : String)
    (portfolioId : Option Nat) (parentCommentId : Option Nat)
    (isAnonymous : Bool) (userId : Option Nat) (username : Option String)
    (now newId : Nat) : Nat × PortfolioStore :=
  if strTrim content == "" then (400, store)
  else
    match portfolioId with
    | none => (400, store)
    | some pid =>
        match findPortfolio store.posts pid with
        | none => (404, store)
        | some portfolio =>
            let parentOk :=
              match parentCommentId with
              | none => true
              | some pcid =>
                  (store.comments.find? (fun c => c.id == pcid)).isSome
            if !parentOk then (404, store)
            else
              let shouldBeAnonymous := isAnonymous || userId.isNone
              let comment : PortfolioCommentDoc :=
                { id := newId, content := strTrim content,
                  author := if shouldBeAnonymous then none else userId,
                  isAnonymous := shouldBeAnonymous,
                  portfolio := pid,
                  parentComment := parentCommentId,
                  isReply := parentCommentId.isSome,
                  createdAt := now }
              let posts1 := updatePortfolioIn store.posts
                { portfolio with
                    lastComment := some
                      { content := truncateContent content,
                        author := if shouldBeAnonymous then "Anonymous"
                                  else username.getD "Anonymous",
                        authorId := if shouldBeAnonymous then none
                                    else userId,
                        date := now,
                        commentId := newId },
                    commentCount := portfolio.commentCount + 1 }
              (201, { posts := posts1,
                      comments := store.comments ++ [comment] })

def demoPortfolio : PortfolioDoc := ⟨7, 0, 0, 0, none⟩

def danglingReq : CreateCommentRequest := ⟨"hi there", 2, some 99, false⟩

/-- Counterexample to C7 as stated: the stock-comment `createComment`
(`controllers/comment.controller.js` lines 109-162) performs no
parent-comment validation at all — against a store with no comments, a
request with `parentCommentId = 99` is persisted and answered 201, not
rejected with `ParentNotFound`. -/
theorem claim_C7_counterexample :
    (createComment ⟨[], [demoStock]⟩ danglingReq (some 9) (some "alice")
        4 30).1 = 201 ∧
    ((createComment ⟨[], [demoStock]⟩ danglingReq (some 9) (some "alice")
        4 30).2.comments.length = 1) := by decide

/-- Claim C7 (amended): `createPortfolioComment` validates that a given
`parentCommentId` resolves before persisting anything and fails with 404
(`ParentNotFound`) leaving the store unchanged; the stock-comment
`createComment`, by contrast, performs no such validation and persists a
reply whose `parentCommentId` resolves to nothing, answering 201. -/
theorem claim_C7_amended :
    (∀ (store : PortfolioStore) (content : String) (pid pcid : Nat)
        (isAnonymous : Bool) (userId : Option Nat)
        (username : Option String) (now newId : Nat)
        (portfolio : PortfolioDoc),
        findPortfolio store.posts pid = some portfolio →
        strTrim content ≠ "" →
        store.comments.find? (fun c => c.id == pcid) = none →
        createPortfolioComment store content (some pid) (some pcid)
          isAnonymous userId username now newId = (404, store)) ∧
    (∀ (store : StockCommentStore) (req : CreateCommentRequest)
        (userId : Option Nat) (username : Option String) (now newId : Nat)
        (pcid : Nat),
        req.parentCommentId = some pcid →
        (∀ c ∈ store.comments, c.id ≠ pcid) →
        strTrim req.content ≠ "" →
        (createComment store req userId username now newId).1 = 201 ∧
        ∃ c, (createComment store req userId username now
            newId).2.comments = store.comments ++ [c] ∧
          c.parentComment = some pcid) := by
  constructor
  · intro store content pid pcid isAnonymous userId username now newId
      portfolio hfind hcontent hparent
    unfold createPortfolioComment
    rw [if_neg (by simpa using hcontent)]
    dsimp only
    rw [hfind]
    simp only [hparent, Option.isSome_none, Bool.not_false, if_pos]
  · intro store req userId username now newId pcid hpc hmissing hcontent
    have hvalid : ∀ (a : Option Nat) (b : Bool),
        commentSaveValid
          { id := newId, content := strTrim req.content,
            author := if (b || a.isNone : Bool) then none else a,
            isAnonymous := (b || a.isNone : Bool),
            stock := some req.stockId, conversation := none,
            parentComment := req.parentCommentId,
            votes := ⟨0, 0, [], [], [], []⟩,
            isReply := req.parentCommentId.isSome,
            createdAt := now } = true := by
      intro a b
      rcases a with _ | u <;> rcases b <;>
        simp [commentSaveValid, hcontent]
    unfold createComment
    simp only [hvalid userId req.isAnonymous, Bool.not_true]
    rcases findStock store.stocks req.stockId with _ | stock
    · exact ⟨rfl, _, rfl, hpc⟩
    · exact ⟨rfl, _, rfl, hpc⟩

/-- Witness for the amended C7 at a concrete input: a portfolio comment
replying to the nonexistent comment 99 is rejected with 404 and nothing
is persisted. -/
theorem claim_C7_amended_witness :
    createPortfolioComment ⟨[demoPortfolio], []⟩ "hi there" (some 7)
      (some 99) false (some 9) (some "alice") 4 30 =
      (404, ⟨[demoPortfolio], []⟩) :=
  claim_C7_amended.1 ⟨[demoPortfolio], []⟩ "hi there" 7 99 false (some 9)
    (some "alice") 4 30 demoPortfolio (by decide) (by decide) (by decide)

/-! ## C8: concurrent likeStock -/

/-- Two concurrent `likeStock` requests on the same stock. Each handler
is an unserialized read-modify-write: it reads the document with
`Stock.findById` and persists its locally computed mutation with
`stock.save()` (every changed field — `likes` and the membership array —
is recomputed from the handler's own snapshot). Nothing in the code
orders the two request handlers, so the schedule
`read A, read B, write A, write B` is possible; under it B's save
persists the state computed from B's stale snapshot, overwriting A's
update. Returns (status A, status B, final stored document). -/
def likeStockConcurrent (s0 : StockDoc) (v1 v2 : Voter) :
    Nat × Nat × StockDoc :=
  let r1 := StockDoc.applyVote .up s0 v1
  let r2 := StockDoc.applyVote .up s0 v2
  (r1.1, r2.1, r2.2)

def freshStock : StockDoc := ⟨4, ⟨0, 0, [], [], [], []⟩, 0, none⟩

/-- Claim C8 evaluated at the failing input: two anonymous voters with
distinct fingerprints both receive 200, yet the stored `likes` counter
ends at 1, not 2 — the increment computed by the first handler is lost
to the read-modify-write race. -/
theorem claim_C8_lost_update :
    (likeStockConcurrent freshStock (.anon "1.1.1.1")
        (.anon "2.2.2.2")).1 = 200 ∧
    (likeStockConcurrent freshStock (.anon "1.1.1.1")
        (.anon "2.2.2.2")).2.1 = 200 ∧
    (likeStockConcurrent freshStock (.anon "1.1.1.1")
        (.anon "2.2.2.2")).2.2.votes.likes = 1 := by decide

/-! ## C10: time-based anonymous identity -/

/-- Decimal digit characters. -/
def decDigitChar : Nat → Char
  | 0 => '0'
  | 1 => '1'
  | 2 => '2'
  | 3 => '3'
  | 4 => '4'
  | 5 => '5'
  | 6 => '6'
  | 7 => '7'
  | 8 => '8'
  | 9 => '9'
  | _ => '*'

/-- Decimal rendering of a natural number — the string JS produces for
`"anonymous_" + Date.now()` (most significant digit first). -/
def natToDecString (n : Nat) : String :=
  if n = 0 then "0"
  else String.mk ((Nat.digits 10 n).reverse.map decDigitChar)

/-- The time-based anonymous fingerprint `"anonymous_" + Date.now()`. -/
def anonFingerprint (t : Nat) : String :=
  "anonymous_" ++ natToDecString t

/-- The identity resolution of the like/dislike handlers
(`controllers/comment.controller.js` lines 326-336,
`controllers/stock.controller.js` lines 287-297): `req.userId` when
present, else `req.sessionID || req.ip || "anonymous_" + Date.now()`
(`none` models a falsy session id / ip). -/
def resolveIdentifier (userId : Option Nat) (sessionID ip : Option String)
    (now : Nat) : Voter :=
  match userId with
  | some u => .auth u
  | none => .anon (sessionID.getD (ip.getD (anonFingerprint now)))

theorem decDigitChar_inj {d1 d2 : Nat} (h1 : d1 < 10) (h2 : d2 < 10)
    (h : decDigitChar d1 = decDigitChar d2) : d1 = d2 := by
  have key : ∀ (a b : Fin 10),
      decDigitChar a.val = decDigitChar b.val → a = b := by decide
  have := key ⟨d1, h1⟩ ⟨d2, h2⟩ h
  exact congrArg Fin.val this

theorem map_decDigitChar_inj : ∀ (l1 l2 : List Nat),
    (∀ d ∈ l1, d < 10) → (∀ d ∈ l2, d < 10) →
    l1.map decDigitChar = l2.map decDigitChar → l1 = l2 := by
  intro l1
  induction l1 with
  | nil =>
    intro l2 _ _ h
    cases l2 with
    | nil => rfl
    | cons x xs => simp at h
  | cons x xs ih =>
    intro l2 hb1 hb2 h
    cases l2 with
    | nil => simp at h
    | cons y ys =>
      simp only [List.map_cons, List.cons.injEq] at h
      have hx : x = y := decDigitChar_inj
        (hb1 x (List.mem_cons_self _ _)) (hb2 y (List.mem_cons_self _ _))
        h.1
      have hxs : xs = ys := ih ys
        (fun d hd => hb1 d (List.mem_cons_of_mem _ hd))
        (fun d hd => hb2 d (List.mem_cons_of_mem _ hd)) h.2
      rw [hx, hxs]

theorem digits_bound_ten (n : Nat) : ∀ d ∈ Nat.digits 10 n, d < 10 :=
  fun _ hd => Nat.digits_lt_base (by norm_num) hd

theorem natToDecString_inj {m n : Nat}
    (h : natToDecString m = natToDecString n) : m = n := by
  unfold natToDecString at h
  by_cases hm : m = 0 <;> by_cases hn : n = 0
  · rw [hm, hn]
  · exfalso
    rw [if_pos hm, if_neg hn] at h
    have hd := congrArg String.data h
    simp only [String.data] at hd
    rcases hrev : (Nat.digits 10 n).reverse with _ | ⟨d, ds⟩
    · rw [hrev] at hd
      simp at hd
    · rw [hrev] at hd
      simp only [List.map_cons, List.cons.injEq] at hd
      have hds : ds = [] := List.map_eq_nil_iff.mp hd.2.symm
      have hdmem : d ∈ Nat.digits 10 n := by
        rw [← List.mem_reverse, hrev]
        exact List.mem_cons_self _ _
      have hd0 : d = 0 := by
        have : decDigitChar d = decDigitChar 0 := by
          rw [← hd.1]
          rfl
        exact decDigitChar_inj (digits_bound_ten n d hdmem) (by norm_num)
          this
      have hdig : Nat.digits 10 n = [0] := by
        have : (Nat.digits 10 n).reverse = [0] := by rw [hrev, hd0, hds]
        simpa using congrArg List.reverse this
      have := Nat.ofDigits_digits 10 n
      rw [hdig] at this
      simp [Nat.ofDigits] at this
      exact hn this.symm
  · exfalso
    rw [if_neg hm, if_pos hn] at h
    have hd := congrArg String.data h
    simp only [String.data] at hd
    rcases hrev : (Nat.digits 10 m).reverse with _ | ⟨d, ds⟩
    · rw [hrev] at hd
      simp at hd
    · rw [hrev] at hd
      simp only [List.map_cons, List.cons.injEq] at hd
      have hds : ds = [] := List.map_eq_nil_iff.mp hd.2
      have hdmem : d ∈ Nat.digits 10 m := by
        rw [← List.mem_reverse, hrev]
        exact List.mem_cons_self _ _
      have hd0 : d = 0 := by
        have : decDigitChar d = decDigitChar 0 := by
          rw [hd.1]
          rfl
        exact decDigitChar_inj (digits_bound_ten m d hdmem) (by norm_num)
          this
      have hdig : Nat.digits 10 m = [0] := by
        have : (Nat.digits 10 m).reverse = [0] := by rw [hrev, hd0, hds]
        simpa using congrArg List.reverse this
      have := Nat.ofDigits_digits 10 m
      rw [hdig] at this
      simp [Nat.ofDigits] at this
      exact hm this.symm
  · rw [if_neg hm, if_neg hn] at h
    have hd := congrArg String.data h
    simp only [String.data] at hd
    have hrev := map_decDigitChar_inj _ _
      (fun d hdm => digits_bound_ten m d (List.mem_reverse.mp hdm))
      (fun d hdn => digits_bound_ten n d (List.mem_reverse.mp hdn)) hd
    have hdig : Nat.digits 10 m = Nat.digits 10 n := by
      simpa using congrArg List.reverse hrev
    exact Nat.digits_inj_iff.mp hdig

theorem anonFingerprint_inj {t1 t2 : Nat}
    (h : anonFingerprint t1 = anonFingerprint t2) : t1 = t2 := by
  unfold anonFingerprint at h
  have hd := congrArg String.data h
  simp at hd
  exact natToDecString_inj (String.ext hd)

/-- A like by an anonymous fingerprint that is not yet in the like set
succeeds, increments `likes` by one, and appends the fingerprint to
`likedByAnonymous` (whether or not a previous dislike was removed). -/
theorem VoteState.like_anon_ok (s : VoteState) (fp : String)
    (h : ¬ s.alreadyLiked (.anon fp)) :
    (s.like (.anon fp)).1 = 200 ∧
    (s.like (.anon fp)).2.likes = s.likes + 1 ∧
    (s.like (.anon fp)).2.likedByAnonymous =
      s.likedByAnonymous ++ [fp] := by
  by_cases hd : s.alreadyDisliked (.anon fp) <;>
    simp [like, h, hd]

/-- Claim C10: a caller with neither a session id nor an IP gets the
fresh time-based fingerprint `"anonymous_" + Date.now()`; two like calls
at distinct times therefore resolve to distinct identities (provided the
derived fingerprints are not already present in the like set): both
succeed, each increments `likes`, and the duplicate-vote check never
fires across the two requests. -/
theorem claim_C10 (c : CommentDoc) (t1 t2 : Nat) (hne : t1 ≠ t2)
    (h1 : ¬ c.votes.alreadyLiked (resolveIdentifier none none none t1))
    (h2 : ¬ c.votes.alreadyLiked (resolveIdentifier none none none t2)) :
    resolveIdentifier none none none t1 ≠
      resolveIdentifier none none none t2 ∧
    (CommentDoc.applyVote .up c (resolveIdentifier none none none t1)).1 =
      200 ∧
    (CommentDoc.applyVote .up
      (CommentDoc.applyVote .up c
        (resolveIdentifier none none none t1)).2
      (resolveIdentifier none none none t2)).1 = 200 ∧
    (CommentDoc.applyVote .up
      (CommentDoc.applyVote .up c
        (resolveIdentifier none none none t1)).2
      (resolveIdentifier none none none t2)).2.votes.likes =
      c.votes.likes + 2 := by
  have hres : ∀ t : Nat, resolveIdentifier none none none t =
      .anon (anonFingerprint t) := fun _ => rfl
  have hfpne : anonFingerprint t1 ≠ anonFingerprint t2 :=
    fun hfp => hne (anonFingerprint_inj hfp)
  rw [hres t1] at h1
  rw [hres t2] at h2
  rw [hres t1, hres t2]
  have hl1 := VoteState.like_anon_ok c.votes (anonFingerprint t1) h1
  have hstep1 : (CommentDoc.applyVote .up c (.anon (anonFingerprint t1))).2.votes =
      (c.votes.like (.anon (anonFingerprint t1))).2 := rfl
  have h2' : ¬ (c.votes.like (.anon (anonFingerprint t1))).2.alreadyLiked
      (.anon (anonFingerprint t2)) := by
    unfold VoteState.alreadyLiked
    rw [hl1.2.2]
    intro hmem
    rcases List.mem_append.mp hmem with hmem | hmem
    · exact h2 hmem
    · exact hfpne (List.mem_singleton.mp hmem).symm
  have hl2 := VoteState.like_anon_ok
    (c.votes.like (.anon (anonFingerprint t1))).2 (anonFingerprint t2) h2'
  refine ⟨?_, hl1.1, ?_, ?_⟩
  · intro hv
    injection hv with hv
    exact hfpne hv
  · exact hl2.1
  · show ((c.votes.like (.anon (anonFingerprint t1))).2.like
      (.anon (anonFingerprint t2))).2.likes = c.votes.likes + 2
    rw [hl2.2.1, hl1.2.1]
    omega

def plainComment : CommentDoc :=
  ⟨40, "hello", none, true, some 2, none, none, ⟨0, 0, [], [], [], []⟩,
    false, 1⟩

/-- Witness for C10 at a concrete input: two anonymous likes at times 1
and 2 on a fresh comment both succeed. -/
theorem claim_C10_witness :
    (CommentDoc.applyVote .up
      (CommentDoc.applyVote .up plainComment
        (resolveIdentifier none none none 1)).2
      (resolveIdentifier none none none 2)).1 = 200 :=
  (claim_C10 plainComment 1 2 (by decide) (by decide) (by decide)).2.2.1

end StockForum
